import Mathlib

/-!
Verification of the delivery-calendar application (`app_calendar.py`).

This file gives a shallow embedding of the core of the program:

* the label normalizer `clean_label`, which applies a fixed ordered list of
  case-insensitive, word-boundary-anchored textual substitutions and then
  collapses whitespace (the ten `re.sub` rules of the source);
* the record loader `load_calendar_data`, which drops rows with missing
  required fields, collapses the "ALL UNITS" unit-tag sentinel, derives a
  task label, drops rows whose label matches `(?i)^Phase\s+\d+$`, tags the
  source, and drops rows whose date fails to parse;
* the layout engine and renderer of `draw_calendar_base_dynamic` and
  `draw_calendar_labels_dynamic`: the month grid, per-day record counts,
  per-week-row heights and top offsets, and the per-day stacked label
  positions, over exact rational arithmetic.

Modelling conventions: character classes (`\w`, `\s`, `\d`, case folding)
are modelled over their ASCII part, which covers every character the rule
set and the claims use; `re.sub`'s scan over the original string is
modelled by a recursion consuming one input character (or one whole match)
per step, driven by a fuel counter initialised to the input length, which
bounds the recursion because every step consumes at least one input
character.  Spreadsheet reading and timestamp parsing are external
collaborators and enter as parameters; a missing (NaN) cell is `none`.
-/

/-- ASCII model of Python's regex word character class `\w`:
letters, digits, or underscore. -/
def isWordChar (c : Char) : Bool := c.isAlphanum || c == '_'

/-- Case-insensitive character comparison, as used by `re.IGNORECASE`
(ASCII case folding: an upper-case letter matches its lower-case pair). -/
def ciEq (a b : Char) : Bool :=
  a == b || (a.isUpper && b.isLower && b.toNat == a.toNat + 32)
    || (b.isUpper && a.isLower && a.toNat == b.toNat + 32)

/-- Match a literal pattern (first argument) case-insensitively against a
prefix of the second argument; on success return the remaining suffix. -/
def matchCI : List Char → List Char → Option (List Char)
  | [], l => some l
  | _ :: _, [] => none
  | p :: ps, c :: cs => if ciEq p c then matchCI ps cs else none

/-- Whether a list starts with a word character (`false` on the empty
list, i.e. at end of string). -/
def headWord : List Char → Bool
  | [] => false
  | c :: _ => isWordChar c

/-- The pattern matches a prefix of `l` and the word boundary after the
match holds (the next character, if any, is not a word character).  All
rule patterns end in a word character, so `\b` after the match is exactly
this condition. -/
def matchOk (pat l : List Char) : Bool :=
  match matchCI pat l with
  | some rest => !headWord rest
  | none => false

/-- One pass of `re.sub(r"\bPAT\b", rep, s, flags=re.IGNORECASE)` for a
literal pattern `p0 :: ps` that begins and ends with a word character (as
all ten rules of `clean_label` do): scan left to right over the original
string; at a position whose preceding character is not a word character
(`w` tracks whether it is), replace the leftmost match and resume after
it, otherwise advance one character.  `fuel` starts at the input length;
each step consumes at least one input character so the `0` case with a
nonempty remainder is never reached. -/
def subAux (p0 : Char) (ps rep : List Char) : Nat → Bool → List Char → List Char
  | _, _, [] => []
  | 0, _, c :: cs => c :: cs
  | fuel + 1, w, c :: cs =>
    if !w && matchOk (p0 :: ps) (c :: cs) then
      rep ++ subAux p0 ps rep fuel (isWordChar ((c :: cs).getD ps.length c)) (cs.drop ps.length)
    else
      c :: subAux p0 ps rep fuel (isWordChar c) cs

/-- There is a word-boundary-anchored, case-insensitive occurrence of the
pattern somewhere in the list, `w` saying whether the character just
before the list's head is a word character. -/
def hasOcc (pat : List Char) : Bool → List Char → Bool
  | _, [] => false
  | w, c :: cs => (!w && matchOk pat (c :: cs)) || hasOcc pat (isWordChar c) cs

/-- `re.sub` of one whole-word rule over a character list. -/
def subWordL (pat rep : String) (l : List Char) : List Char :=
  match pat.data with
  | [] => l
  | p :: ps => subAux p ps rep.data l.length false l

/-- The ordered replacement rules of `clean_label`, in source order. -/
def rules : List (String × String) :=
  [("SWITCHGEAR", "SWGR"),
   ("LV SWITCHGEAR", "LV SWGR"),
   ("MV SWITCHGEAR", "MV SWGR"),
   ("GENERATOR", ""),
   ("GEN", "GEN"),
   ("TRANSFORMER", ""),
   ("PANELS", ""),
   ("SWGR SWGR", "SWGR"),
   ("LV LV", "LV"),
   ("MARS", "Racking")]

/-- The same rule list with the `"LV SWITCHGEAR" → "LV SWGR"` rule
removed (for the redundancy claim). -/
def rulesNoLV : List (String × String) :=
  [("SWITCHGEAR", "SWGR"),
   ("MV SWITCHGEAR", "MV SWGR"),
   ("GENERATOR", ""),
   ("GEN", "GEN"),
   ("TRANSFORMER", ""),
   ("PANELS", ""),
   ("SWGR SWGR", "SWGR"),
   ("LV LV", "LV"),
   ("MARS", "Racking")]

/-- Apply an ordered rule list, each rule rewriting the output of the
previous one (the `for pattern, repl in replacements.items()` loop). -/
def applyRules (rs : List (String × String)) (l : List Char) : List Char :=
  rs.foldl (fun acc pr => subWordL pr.1 pr.2 acc) l

/-- ASCII model of Python's `\s`: space, tab, newline, carriage return,
vertical tab, form feed. -/
def isSpaceB (c : Char) : Bool :=
  c == ' ' || c == '\t' || c == '\n' || c == '\r' || c == Char.ofNat 11 || c == Char.ofNat 12

/-- `re.sub(r"\s+", " ", s)`: collapse every maximal whitespace run to a
single space. -/
def collapseWS : List Char → List Char
  | [] => []
  | [c] => if isSpaceB c then [' '] else [c]
  | c :: d :: rest =>
    if isSpaceB c && isSpaceB d then collapseWS (d :: rest)
    else (if isSpaceB c then ' ' else c) :: collapseWS (d :: rest)

/-- Python `str.strip()`: drop leading and trailing whitespace. -/
def stripWS (l : List Char) : List Char :=
  ((l.dropWhile isSpaceB).reverse.dropWhile isSpaceB).reverse

/-- `clean_label` from the source: apply the ten ordered substitution
rules, collapse whitespace runs, and strip.  (The source's non-string
pass-through branch does not arise: inputs here are strings.) -/
def clean_label (s : String) : String :=
  ⟨stripWS (collapseWS (applyRules rules s.data))⟩

/-- `clean_label` as it would read with the dead `"LV SWITCHGEAR"` rule
dropped from the rule list. -/
def clean_labelNoLV (s : String) : String :=
  ⟨stripWS (collapseWS (applyRules rulesNoLV s.data))⟩

/-- Python `re.match(r"(?i)^Phase\s+\d+$", s)` as a whole-string test:
`"Phase"` case-insensitively, then one or more whitespace characters,
then one or more digits, then the end of the string (Python's `$` also
accepts a single trailing newline).  `\s` and `\d` are disjoint, so the
greedy scan below is exact. -/
def phaseMatch (s : String) : Bool :=
  match matchCI ['P', 'h', 'a', 's', 'e'] s.data with
  | none => false
  | some r =>
    match r with
    | [] => false
    | c :: _ =>
      isSpaceB c &&
        (match r.dropWhile isSpaceB with
         | [] => false
         | d :: _ =>
           d.isDigit &&
             (let r2 := (r.dropWhile isSpaceB).dropWhile Char.isDigit
              r2 == [] || r2 == ['\n']))

/-- A pandas timestamp: a calendar date plus a time-of-day component (in
nanoseconds).  `pd.Timestamp(year, month, day)` is midnight, component 0;
`pd.to_datetime` on a datetime-valued cell can yield a nonzero one. -/
structure Timestamp where
  year : Int
  month : Nat
  day : Nat
  timeOfDay : Nat
  deriving DecidableEq, Repr

/-- `pd.Timestamp(year, month, day)`: midnight of the given date. -/
def midnight (y : Int) (m d : Nat) : Timestamp := ⟨y, m, d, 0⟩

/-- One raw spreadsheet row, restricted to the three columns the loader
selects; `none` is a missing (NaN) cell, which `dropna` removes. -/
structure RawRow where
  category : Option String
  unitTag : Option String
  dateField : Option String
  deriving DecidableEq, Repr

/-- One surviving row of the loader's output dataframe: the two kept
columns, the derived `TaskLabel`, the `Source` tag, and the parsed date. -/
structure DeliveryRecord where
  category : String
  unitTag : String
  taskLabel : String
  source : String
  date : Timestamp
  deriving DecidableEq, Repr

/-- `load_calendar_data`, stage by stage in source order: `dropna` on the
three required columns, replace the `"ALL UNITS"` unit tag by `""`,
derive `TaskLabel = category ++ " " ++ unitTag` and clean it, drop rows
whose label matches the Phase pattern, set `Source`, parse the date
column (`parse` stands for `pd.to_datetime`, `none` for `NaT`) and drop
rows where parsing failed. -/
def load_calendar_data (parse : String → Option Timestamp) (rows : List RawRow)
    (source_label : String) : List DeliveryRecord :=
  let s1 : List (String × String × String) := rows.filterMap (fun r =>
    match r.category, r.unitTag, r.dateField with
    | some c, some u, some d => some (c, u, d)
    | _, _, _ => none)
  let s2 := s1.map (fun p => (p.1, if p.2.1 = "ALL UNITS" then "" else p.2.1, p.2.2))
  let s3 : List (String × String × String × String) :=
    s2.map (fun p => (p.1, p.2.1, p.2.2, clean_label (p.1 ++ " " ++ p.2.1)))
  let s4 := s3.filter (fun p => !phaseMatch p.2.2.2)
  s4.filterMap (fun p => (parse p.2.2.1).map (fun t =>
    { category := p.1, unitTag := p.2.1, taskLabel := p.2.2.2,
      source := source_label, date := t }))

/-- The loader's per-row outcome: `none` when the row is dropped (missing
field, Phase label, or unparseable date), otherwise the record. -/
def processRow (parse : String → Option Timestamp) (source_label : String)
    (r : RawRow) : Option DeliveryRecord :=
  match r.category, r.unitTag, r.dateField with
  | some c, some u, some d =>
    let u' := if u = "ALL UNITS" then "" else u
    let lbl := clean_label (c ++ " " ++ u')
    if phaseMatch lbl then none
    else (parse d).map (fun t =>
      { category := c, unitTag := u', taskLabel := lbl, source := source_label, date := t })
  | _, _, _ => none

/-- A row is missing one of the three required fields (dropped by
`dropna`). -/
def missingField (r : RawRow) : Bool :=
  r.category.isNone || r.unitTag.isNone || r.dateField.isNone

/-- The label a complete row would receive (category and collapsed unit
tag through `clean_label`). -/
def rowLabel (c u : String) : String :=
  clean_label (c ++ " " ++ (if u = "ALL UNITS" then "" else u))

/-- A complete row's label matches the Phase pattern (rows with a missing
field count as `false`: they are dropped before the Phase filter). -/
def rowPhase (r : RawRow) : Bool :=
  match r.category, r.unitTag, r.dateField with
  | some c, some u, some _ => phaseMatch (rowLabel c u)
  | _, _, _ => false

/-- The row's date field, if present, parses successfully. -/
def rowParseOk (parse : String → Option Timestamp) (r : RawRow) : Bool :=
  match r.dateField with
  | some d => (parse d).isSome
  | none => true

/-- Gregorian leap year. -/
def isLeap (y : Int) : Bool := y % 4 == 0 && (y % 100 != 0 || y % 400 == 0)

/-- Number of days in a month. -/
def daysInMonth (y : Int) (m : Nat) : Nat :=
  if m = 2 then (if isLeap y then 29 else 28)
  else if m = 4 || m = 6 || m = 9 || m = 11 then 30
  else 31

/-- Days from 1970-01-01 to the given civil date (standard civil-calendar
day count; all intermediate quantities are nonnegative for years ≥ 1,
Python's `datetime` domain). -/
def daysFromCivil (y : Int) (m d : Nat) : Int :=
  let y' : Int := if m ≤ 2 then y - 1 else y
  let era : Int := y' / 400
  let yoe : Int := y' - era * 400
  let mp : Int := ((m : Int) + 9) % 12
  let doy : Int := (153 * mp + 2) / 5 + (d : Int) - 1
  let doe : Int := yoe * 365 + yoe / 4 - yoe / 100 + doy
  era * 146097 + doe - 719468

/-- `datetime.date(y, m, d).weekday()`: Monday = 0 … Sunday = 6
(1970-01-01 was a Thursday, weekday 3). -/
def weekdayMon0 (y : Int) (m d : Nat) : Nat :=
  ((daysFromCivil y m d + 3) % 7).toNat

/-- `calendar.monthcalendar(year, month)` with
`calendar.setfirstweekday(calendar.SUNDAY)`: the month's days laid out in
week rows of 7, Sunday first, `0` for day slots outside the month. -/
def monthcalendar (y : Int) (m : Nat) : List (List Nat) :=
  let n := daysInMonth y m
  let before := (weekdayMon0 y m 1 + 1) % 7
  let pad := (7 - (before + n) % 7) % 7
  let days := List.replicate before 0 ++ (List.range n).map (· + 1) ++ List.replicate pad 0
  (List.range ((before + n + pad) / 7)).map (fun i => (days.drop (7 * i)).take 7)

/-- `df[df[date_column] == day_date]` for `day_date = pd.Timestamp(year,
month, day)`: the records whose parsed date equals midnight of that day,
in input order. -/
def tasksForDay (df : List DeliveryRecord) (y : Int) (m day : Nat) : List DeliveryRecord :=
  df.filter (fun r => decide (r.date = midnight y m day))

/-- The week loop of step 1 of `draw_calendar_base_dynamic`: `week_max`
starts at 0 and takes the maximum of the per-day record counts over the
week's present (nonzero) day slots. -/
def week_max (df : List DeliveryRecord) (y : Int) (m : Nat) (week : List Nat) : Nat :=
  week.foldl (fun acc day =>
    if day ≠ 0 then max acc (tasksForDay df y m day).length else acc) 0

/-- The numeric spacing constants of the layout engine, with the
defaults of the source's keyword arguments. -/
structure LayoutConfig where
  default_height : ℚ
  line_height : ℚ
  date_padding : ℚ
  weekday_padding : ℚ
  title_padding : ℚ
  deriving DecidableEq, Repr

/-- The source's default spacing constants: 1.0, 0.15, 0.12, 0.12, 0.25. -/
def defaultConfig : LayoutConfig := ⟨1, 15 / 100, 12 / 100, 12 / 100, 25 / 100⟩

/-- Step 2 of `draw_calendar_base_dynamic`:
`needed = date_padding + max(0, week_max - 1) * line_height + 0.1` and
`h = max(default_height, needed)`. -/
def week_height (cfg : LayoutConfig) (weekMax : Nat) : ℚ :=
  max cfg.default_height
    (cfg.date_padding + ((max 0 ((weekMax : Int) - 1) : Int) : ℚ) * cfg.line_height + 1 / 10)

/-- The per-week-row heights for a month. -/
def week_heights (df : List DeliveryRecord) (y : Int) (m : Nat) (cfg : LayoutConfig) : List ℚ :=
  (monthcalendar y m).map (fun wk => week_height cfg (week_max df y m wk))

/-- Step 3 of `draw_calendar_base_dynamic`: week top y-positions,
`y_top = -(cumulative + 0.02)` with `cumulative` the sum of the previous
heights. -/
def week_topsGo (cumulative : ℚ) : List ℚ → List ℚ
  | [] => []
  | h :: rest => -(cumulative + 1 / 50) :: week_topsGo (cumulative + h) rest

/-- The week top y-positions for a list of week heights. -/
def week_tops (hs : List ℚ) : List ℚ := week_topsGo 0 hs

/-- The label colour map: `colors.get(row.Source, "black")` with the
default `{"CMH116": "darkblue", "CMH120": "darkred"}`. -/
def colorLookup (colors : List (String × String)) (src : String) : String :=
  match colors.find? (fun p => p.1 = src) with
  | some p => p.2
  | none => "black"

/-- The source's default colour dictionary. -/
def defaultColors : List (String × String) := [("CMH116", "darkblue"), ("CMH120", "darkred")]

/-- One `ax.text` call of the label pass: position, text, colour. -/
structure LabelDraw where
  x : ℚ
  y : ℚ
  text : String
  color : String
  deriving DecidableEq, Repr

instance : Inhabited LabelDraw := ⟨⟨0, 0, "", ""⟩⟩

/-- The inner loop of `draw_calendar_labels_dynamic` for one day cell:
`for i, row in enumerate(tasks)` emits text at
`(x + 0.17, (y_top - date_padding - i*line_height) + 0.08)` with the
record's label and its source's colour. -/
def cellLabels (df : List DeliveryRecord) (colors : List (String × String)) (y : Int)
    (m day : Nat) (x yTop lineH dateP : ℚ) : List LabelDraw :=
  (tasksForDay df y m day).enum.map (fun p =>
    { x := x + 17 / 100,
      y := yTop - dateP - (p.1 : ℚ) * lineH + 2 / 25,
      text := p.2.taskLabel,
      color := colorLookup colors p.2.source })

/-- The full label pass of `draw_calendar_labels_dynamic`, fed with the
geometry `draw_calendar_base_dynamic` computed for the same
configuration: iterate the week rows and day columns, skip absent slots,
and stack each day's labels. -/
def calendarLabels (df : List DeliveryRecord) (colors : List (String × String))
    (y : Int) (m : Nat) (cfg : LayoutConfig) : List LabelDraw :=
  let md := monthcalendar y m
  let tops := week_tops (week_heights df y m cfg)
  md.enum.flatMap (fun wp =>
    wp.2.enum.flatMap (fun dp =>
      if dp.2 = 0 then []
      else cellLabels df colors y m dp.2 (dp.1 : ℚ) (tops.getD wp.1 0)
        cfg.line_height cfg.date_padding))

/-- The spec's reading of `week_max`: the maximum of the per-day record
counts over the week's day slots, an absent slot contributing 0. -/
def weekMaxSpec (df : List DeliveryRecord) (y : Int) (m : Nat) (wk : List Nat) : Nat :=
  (wk.map (fun d => if d = 0 then 0 else (tasksForDay df y m d).length)).foldr max 0

/-- A concrete stand-in for `pd.to_datetime` used by witnesses: every
field parses to midnight of 2024-01-15. -/
def sampleParse : String → Option Timestamp := fun _ => some (midnight 2024 1 15)

/-- A configuration whose `date_padding` exceeds `default_height`,
exercising the `max` in the row-height formula. -/
def bigPadConfig : LayoutConfig := ⟨1, 15 / 100, 2, 12 / 100, 25 / 100⟩

/-- A concrete record dated (midnight of) 2024-01-15. -/
def cexRecord : DeliveryRecord :=
  { category := "A", unitTag := "1", taskLabel := "A 1", source := "CMH116",
    date := midnight 2024 1 15 }

/-- A concrete record whose parsed timestamp has a nonzero time of day. -/
def lateRecord : DeliveryRecord :=
  { category := "B", unitTag := "2", taskLabel := "B 2", source := "CMH120",
    date := ⟨2024, 1, 15, 3600⟩ }

/-- Five records on the same day, making that day's count 5. -/
def busyDf : List DeliveryRecord := List.replicate 5 cexRecord

/-- The record the loader produces for a ("Phase", "3A") row under
`sampleParse`. -/
def phase3ARecord : DeliveryRecord :=
  { category := "Phase", unitTag := "3A", taskLabel := "Phase 3A", source := "S",
    date := midnight 2024 1 15 }

/-- The loader processes rows independently: prepending a row prepends
its per-row outcome. -/
theorem load_cons (parse : String → Option Timestamp) (src : String) (r : RawRow)
    (rows : List RawRow) :
    load_calendar_data parse (r :: rows) src
      = (processRow parse src r).toList ++ load_calendar_data parse rows src := by
  rcases r with ⟨oc, ou, od⟩
  cases oc with
  | none => simp [load_calendar_data, processRow]
  | some c =>
    cases ou with
    | none => simp [load_calendar_data, processRow]
    | some u =>
      cases od with
      | none => simp [load_calendar_data, processRow]
      | some d =>
        simp only [load_calendar_data, processRow, List.filterMap_cons, List.map_cons,
          List.filter_cons]
        by_cases hp : phaseMatch (clean_label (c ++ " " ++ if u = "ALL UNITS" then "" else u))
        · simp [hp]
        · cases hd : parse d with
          | none => simp [hp, hd]
          | some t => simp [hp, hd]

/-- The whole loader is the per-row outcome mapped over the input. -/
theorem load_eq_filterMap (parse : String → Option Timestamp) (rows : List RawRow)
    (src : String) :
    load_calendar_data parse rows src = rows.filterMap (processRow parse src) := by
  induction rows with
  | nil => rfl
  | cons r rows ih =>
    rw [load_cons, ih, List.filterMap_cons]
    cases processRow parse src r <;> simp

/-- A row with a missing required field is dropped. -/
theorem processRow_none_of_missing (parse : String → Option Timestamp) (src : String)
    (r : RawRow) (h : missingField r = true) : processRow parse src r = none := by
  rcases r with ⟨oc, ou, od⟩
  cases oc <;> cases ou <;> cases od <;> simp_all [missingField, processRow]

/-- A complete row with a non-Phase label and a parseable date survives. -/
theorem processRow_some_of_ok (parse : String → Option Timestamp) (src : String)
    (r : RawRow) (hm : missingField r = false) (hph : rowPhase r = false)
    (hpa : rowParseOk parse r = true) : (processRow parse src r).isSome = true := by
  rcases r with ⟨oc, ou, od⟩
  cases oc <;> cases ou <;> cases od <;>
    simp_all [missingField, processRow, rowPhase, rowLabel, rowParseOk]


/-- C1 (amended): every record surviving the loader carries a date that
came from a successful parse of its date field (never null), its source
tag, and a label that is the deterministic pure function `clean_label` of
its category and (collapsed) unit tag; the label, however, can be empty. -/
theorem loader_record_invariants (parse : String → Option Timestamp) (rows : List RawRow)
    (src : String) (r : DeliveryRecord) (h : r ∈ load_calendar_data parse rows src) :
    r.taskLabel = clean_label (r.category ++ " " ++ r.unitTag)
      ∧ r.source = src ∧ ∃ d : String, parse d = some r.date := by
  rw [load_eq_filterMap] at h
  rcases List.mem_filterMap.1 h with ⟨raw, _, hpr⟩
  rcases raw with ⟨oc, ou, od⟩
  cases oc <;> cases ou <;> cases od <;> simp [processRow] at hpr
  rcases hpr with ⟨-, t, ht, hrec⟩
  subst hrec
  exact ⟨rfl, rfl, _, ht⟩

/-- C1 (counterexample): the raw row (category "GENERATOR", unit tag
"ALL UNITS", a parseable date) survives the loader, but its label is the
empty string: the unit tag collapses to "", the word GENERATOR is
deleted, and stripping leaves nothing, refuting the non-empty-label
invariant. -/
theorem loader_empty_label_possible :
    (load_calendar_data (fun _ => some (midnight 2024 1 15))
        [⟨some "GENERATOR", some "ALL UNITS", some "2024-01-15"⟩] "S").map
        (fun r => r.taskLabel) = [""]
      ∧ (load_calendar_data (fun _ => some (midnight 2024 1 15))
          [⟨some "GENERATOR", some "ALL UNITS", some "2024-01-15"⟩] "S").length = 1 := by
  constructor <;> decide

/-- Witness for `loader_record_invariants` at a concrete surviving row. -/
theorem loader_record_invariants_witness :
    ({ category := "PUMP", unitTag := "P1", taskLabel := "PUMP P1", source := "S",
       date := midnight 2024 1 15 } : DeliveryRecord).taskLabel
        = clean_label ("PUMP" ++ " " ++ "P1")
      ∧ ({ category := "PUMP", unitTag := "P1", taskLabel := "PUMP P1", source := "S",
           date := midnight 2024 1 15 } : DeliveryRecord).source = "S"
      ∧ ∃ d : String, (fun _ : String => some (midnight 2024 1 15)) d
          = some ({ category := "PUMP", unitTag := "P1", taskLabel := "PUMP P1", source := "S",
                    date := midnight 2024 1 15 } : DeliveryRecord).date :=
  loader_record_invariants (fun _ => some (midnight 2024 1 15))
    [⟨some "PUMP", some "P1", some "2024-01-15"⟩] "S"
    { category := "PUMP", unitTag := "P1", taskLabel := "PUMP P1", source := "S",
      date := midnight 2024 1 15 }
    (by decide)

/-- C2: the loader drops exactly the rows with a missing (null) required
field, before any other processing; when the remaining rows all have
parseable dates and none has a Phase label, the output length is the
input length minus the number of defective rows. -/
theorem loader_drops_exactly_missing (parse : String → Option Timestamp) (rows : List RawRow)
    (src : String)
    (hparse : ∀ r ∈ rows, missingField r = false → rowParseOk parse r = true)
    (hphase : ∀ r ∈ rows, rowPhase r = false) :
    (load_calendar_data parse rows src).length
      = rows.length - (rows.filter missingField).length := by
  rw [load_eq_filterMap]
  induction rows with
  | nil => rfl
  | cons r rows ih =>
    have hr1 := hparse r (List.mem_cons_self r rows)
    have hr2 := hphase r (List.mem_cons_self r rows)
    have ih' := ih (fun x hx hm => hparse x (List.mem_cons_of_mem r hx) hm)
      (fun x hx => hphase x (List.mem_cons_of_mem r hx))
    have hle : (rows.filter missingField).length ≤ rows.length := List.length_filter_le _ _
    rw [List.filterMap_cons, List.filter_cons]
    by_cases hm : missingField r = true
    · rw [processRow_none_of_missing parse src r hm]
      simp only [hm, if_pos, ih', List.length_cons]
      omega
    · have hm' : missingField r = false := by
        cases hmb : missingField r
        · rfl
        · exact absurd hmb hm
      have hs := processRow_some_of_ok parse src r hm' hr2 (hr1 hm')
      cases hrec : processRow parse src r with
      | none => rw [hrec] at hs; simp at hs
      | some rec =>
        simp only [hm', Bool.false_eq_true, if_false, List.length_cons, ih']
        omega

/-- Witness for `loader_drops_exactly_missing`: a batch of three rows of
which one is missing its unit tag yields two records. -/
theorem loader_drops_exactly_missing_witness :
    (load_calendar_data sampleParse
        [⟨some "PUMP", some "P1", some "2024-01-15"⟩,
         ⟨some "FAN", none, some "2024-01-15"⟩,
         ⟨some "CRAC", some "ALL UNITS", some "2024-01-15"⟩] "S").length
      = ([⟨some "PUMP", some "P1", some "2024-01-15"⟩,
          ⟨some "FAN", none, some "2024-01-15"⟩,
          ⟨some "CRAC", some "ALL UNITS", some "2024-01-15"⟩] : List RawRow).length
        - (([⟨some "PUMP", some "P1", some "2024-01-15"⟩,
             ⟨some "FAN", none, some "2024-01-15"⟩,
             ⟨some "CRAC", some "ALL UNITS", some "2024-01-15"⟩] : List RawRow).filter
            missingField).length :=
  loader_drops_exactly_missing sampleParse
    [⟨some "PUMP", some "P1", some "2024-01-15"⟩,
     ⟨some "FAN", none, some "2024-01-15"⟩,
     ⟨some "CRAC", some "ALL UNITS", some "2024-01-15"⟩] "S"
    (by decide) (by decide)

/-- C3: no record surviving the loader has a label matching the
case-insensitive whole-string pattern "Phase" + whitespace + digits; and
concretely, rows labelled "Phase 3" or "pHaSe 12" are excluded while a
row labelled "Phase 3A" survives. -/
theorem loader_phase_filter (parse : String → Option Timestamp) (rows : List RawRow)
    (src : String) (r : DeliveryRecord) (h : r ∈ load_calendar_data parse rows src) :
    phaseMatch r.taskLabel = false
      ∧ load_calendar_data sampleParse [⟨some "Phase", some "3", some "x"⟩] "S" = []
      ∧ load_calendar_data sampleParse [⟨some "pHaSe", some "12", some "x"⟩] "S" = []
      ∧ (load_calendar_data sampleParse [⟨some "Phase", some "3A", some "x"⟩] "S").map
          (fun rec => rec.taskLabel) = ["Phase 3A"] := by
  refine ⟨?_, by decide, by decide, by decide⟩
  rw [load_eq_filterMap] at h
  rcases List.mem_filterMap.1 h with ⟨raw, _, hpr⟩
  rcases raw with ⟨oc, ou, od⟩
  cases oc <;> cases ou <;> cases od <;> simp [processRow] at hpr
  rcases hpr with ⟨hph, t, ht, hrec⟩
  subst hrec
  simpa using hph

/-- Witness for `loader_phase_filter` at the concrete surviving
"Phase 3A" record. -/
theorem loader_phase_filter_witness :
    phaseMatch phase3ARecord.taskLabel = false
      ∧ load_calendar_data sampleParse [⟨some "Phase", some "3", some "x"⟩] "S" = []
      ∧ load_calendar_data sampleParse [⟨some "pHaSe", some "12", some "x"⟩] "S" = []
      ∧ (load_calendar_data sampleParse [⟨some "Phase", some "3A", some "x"⟩] "S").map
          (fun rec => rec.taskLabel) = ["Phase 3A"] :=
  loader_phase_filter sampleParse [⟨some "Phase", some "3A", some "x"⟩] "S"
    phase3ARecord (by decide)

/-- C8: normalizing category "STANDBY GENERATOR" with the unit tag
already collapsed to "" yields "STANDBY" (the word GENERATOR is deleted
and the trailing space trimmed), both for `clean_label` itself and
through the loader on a raw ("STANDBY GENERATOR", "ALL UNITS") row. -/
theorem standby_generator_label :
    clean_label ("STANDBY GENERATOR" ++ " " ++ "") = "STANDBY"
      ∧ (load_calendar_data sampleParse
          [⟨some "STANDBY GENERATOR", some "ALL UNITS", some "x"⟩] "S").map
          (fun r => r.taskLabel) = ["STANDBY"] := by
  constructor <;> decide

/-- The week loop's running maximum equals the maximum of the per-day
counts folded from the right. -/
theorem week_max_go (df : List DeliveryRecord) (y : Int) (m : Nat) :
    ∀ (wk : List Nat) (acc : Nat),
      wk.foldl (fun a day => if day ≠ 0 then max a (tasksForDay df y m day).length else a) acc
        = max acc (weekMaxSpec df y m wk) := by
  intro wk
  induction wk with
  | nil => intro acc; simp [weekMaxSpec]
  | cons d wk ih =>
    intro acc
    rw [List.foldl_cons]
    have hspec : weekMaxSpec df y m (d :: wk)
        = max (if d = 0 then 0 else (tasksForDay df y m d).length) (weekMaxSpec df y m wk) := by
      simp [weekMaxSpec]
    rw [hspec]
    by_cases hd : d = 0
    · have e1 : (if d ≠ 0 then max acc (tasksForDay df y m d).length else acc) = acc := by
        simp [hd]
      rw [e1, ih acc, if_pos hd]
      omega
    · have e1 : (if d ≠ 0 then max acc (tasksForDay df y m d).length else acc)
          = max acc (tasksForDay df y m d).length := by simp [hd]
      rw [e1, ih, if_neg hd]
      omega

/-- The source's `week_max` fold computes the spec's maximum per-day
count over the week's present days. -/
theorem week_max_eq_spec (df : List DeliveryRecord) (y : Int) (m : Nat) (wk : List Nat) :
    week_max df y m wk = weekMaxSpec df y m wk := by
  have h := week_max_go df y m wk 0
  simpa [week_max] using h

/-- C4: the i-th week row's height is
`max(default_height, date_padding + max(0, weekMax-1)*line_height + 0.1)`
with `weekMax` the maximum per-day record count over the row's present
days; in particular, for `weekMax = 5` the height is at least
`date_padding + 4*line_height + 0.1` and at least `default_height`. -/
theorem week_height_formula (df : List DeliveryRecord) (y : Int) (m : Nat)
    (cfg : LayoutConfig) (i : Nat) (wk : List Nat)
    (h : (monthcalendar y m)[i]? = some wk) :
    (week_heights df y m cfg)[i]?
        = some (max cfg.default_height
            (cfg.date_padding
              + ((max 0 ((weekMaxSpec df y m wk : Int) - 1) : Int) : ℚ) * cfg.line_height
              + 1 / 10))
      ∧ (weekMaxSpec df y m wk = 5 →
          cfg.date_padding + 4 * cfg.line_height + 1 / 10
              ≤ week_height cfg (week_max df y m wk)
            ∧ cfg.default_height ≤ week_height cfg (week_max df y m wk)) := by
  constructor
  · rw [week_heights, List.getElem?_map, h]
    simp only [Option.map_some']
    rw [week_height, week_max_eq_spec]
  · intro h5
    constructor
    · rw [week_height, week_max_eq_spec, h5]
      have h4 : ((max 0 (((5 : ℕ) : Int) - 1) : Int) : ℚ) * cfg.line_height
          = 4 * cfg.line_height := by norm_num
      rw [h4]
      exact le_max_right _ _
    · rw [week_height]
      exact le_max_left _ _

/-- Witness for `week_height_formula`: the third week row of January
2024 with five records on the 15th. -/
theorem week_height_formula_witness :
    (week_heights busyDf 2024 1 defaultConfig)[2]?
        = some (max defaultConfig.default_height
            (defaultConfig.date_padding
              + ((max 0 ((weekMaxSpec busyDf 2024 1 [14, 15, 16, 17, 18, 19, 20] : Int) - 1)
                  : Int) : ℚ) * defaultConfig.line_height
              + 1 / 10))
      ∧ (weekMaxSpec busyDf 2024 1 [14, 15, 16, 17, 18, 19, 20] = 5 →
          defaultConfig.date_padding + 4 * defaultConfig.line_height + 1 / 10
              ≤ week_height defaultConfig (week_max busyDf 2024 1 [14, 15, 16, 17, 18, 19, 20])
            ∧ defaultConfig.default_height
              ≤ week_height defaultConfig (week_max busyDf 2024 1 [14, 15, 16, 17, 18, 19, 20])) :=
  week_height_formula busyDf 2024 1 defaultConfig 2 [14, 15, 16, 17, 18, 19, 20] (by decide)

/-- C5 (counterexample): for the configuration with `date_padding = 2`
and `default_height = 1`, the first week row of January 2024 has
`week_max = 0` but height `2.1`, not `default_height`: the claim fails
for configurations where `date_padding + 0.1 > default_height`. -/
theorem week_height_zero_not_default_cex :
    week_max ([] : List DeliveryRecord) 2024 1 [0, 1, 2, 3, 4, 5, 6] = 0
      ∧ (week_heights [] 2024 1 bigPadConfig)[0]? = some (21 / 10)
      ∧ ((21 / 10 : ℚ) = bigPadConfig.default_height → False) := by
  refine ⟨by decide, ?_, by norm_num [bigPadConfig]⟩
  rw [week_heights, List.getElem?_map]
  have h : (monthcalendar 2024 1)[0]? = some [0, 1, 2, 3, 4, 5, 6] := by decide
  rw [h]
  simp only [Option.map_some', Option.some_inj]
  have h0 : week_max ([] : List DeliveryRecord) 2024 1 [0, 1, 2, 3, 4, 5, 6] = 0 := by decide
  rw [h0, week_height]
  rw [max_eq_right]
  · norm_num [bigPadConfig]
  · norm_num [bigPadConfig]

/-- C5 (amended): a week row with `week_max = 0` has height exactly
`default_height` whenever `date_padding + 0.1 ≤ default_height`, which
holds at the source's default configuration. -/
theorem week_height_zero_default (df : List DeliveryRecord) (y : Int) (m : Nat)
    (cfg : LayoutConfig) (i : Nat) (wk : List Nat)
    (h : (monthcalendar y m)[i]? = some wk)
    (h0 : week_max df y m wk = 0)
    (hcfg : cfg.date_padding + 1 / 10 ≤ cfg.default_height) :
    (week_heights df y m cfg)[i]? = some cfg.default_height := by
  rw [week_heights, List.getElem?_map, h]
  simp only [Option.map_some', Option.some_inj]
  rw [h0, week_height]
  rw [max_eq_left]
  norm_num
  exact hcfg

/-- Witness for `week_height_zero_default`: the empty record set and the
default configuration give the first January 2024 row height 1.0. -/
theorem week_height_zero_default_witness :
    (week_heights [] 2024 1 defaultConfig)[0]? = some defaultConfig.default_height :=
  week_height_zero_default [] 2024 1 defaultConfig 0 [0, 1, 2, 3, 4, 5, 6]
    (by decide) (by decide) (by norm_num [defaultConfig])

/-- C6 (amended): the i-th record of a day (0-indexed, in input order) is
drawn at vertical position `dayTop - date_padding - i*line_height + 0.08`
(the source adds the fixed 0.08 text-anchor offset to the computed
`label_y`); consecutive records of a day are thus exactly `line_height`
apart. -/
theorem label_stacking_position (df : List DeliveryRecord) (colors : List (String × String))
    (y : Int) (m day : Nat) (x yTop lineH dateP : ℚ) (i : Nat) (r : DeliveryRecord)
    (h : (tasksForDay df y m day)[i]? = some r) :
    (cellLabels df colors y m day x yTop lineH dateP)[i]?
      = some { x := x + 17 / 100, y := yTop - dateP - (i : ℚ) * lineH + 2 / 25,
               text := r.taskLabel, color := colorLookup colors r.source } := by
  rw [cellLabels, List.getElem?_map, List.getElem?_enum, h]
  rfl

/-- C6 (counterexample): for a single record on 2024-01-15 with
`yTop = 0`, `date_padding = 0.12`, the drawn y-position is `-0.04`, not
the claimed `yTop - date_padding - 0*line_height = -0.12`: the source
draws at `label_y + 0.08`. -/
theorem label_y_offset_cex :
    ((cellLabels [cexRecord] defaultColors 2024 1 15 0 0 (15 / 100) (12 / 100))[0]?).map
        (fun L => L.y) = some (-((1 : ℚ) / 25))
      ∧ ((some (-(1 / 25) : ℚ) : Option ℚ)
          = some ((0 : ℚ) - 12 / 100 - ((0 : ℕ) : ℚ) * (15 / 100)) → False) := by
  constructor
  · have ht : tasksForDay [cexRecord] 2024 1 15 = [cexRecord] := by decide
    rw [cellLabels, ht]
    simp [List.enum]
    norm_num
  · intro hcontr
    rw [Option.some_inj] at hcontr
    norm_num at hcontr

/-- Witness for `label_stacking_position` at a concrete one-record day. -/
theorem label_stacking_position_witness :
    (cellLabels [cexRecord] defaultColors 2024 1 15 0 0 (15 / 100) (12 / 100))[0]?
      = some { x := (0 : ℚ) + 17 / 100,
               y := (0 : ℚ) - 12 / 100 - ((0 : ℕ) : ℚ) * (15 / 100) + 2 / 25,
               text := cexRecord.taskLabel,
               color := colorLookup defaultColors cexRecord.source } :=
  label_stacking_position [cexRecord] defaultColors 2024 1 15 0 0 (15 / 100) (12 / 100) 0
    cexRecord (by decide)

/-- Projecting away the geometry, a day cell's labels are exactly its
records' labels with their source colours, in input order. -/
theorem cellLabels_proj (df : List DeliveryRecord) (colors : List (String × String))
    (y : Int) (m day : Nat) (x yTop lineH dateP : ℚ) :
    (cellLabels df colors y m day x yTop lineH dateP).map (fun L => (L.text, L.color))
      = (tasksForDay df y m day).map (fun r => (r.taskLabel, colorLookup colors r.source)) := by
  rw [cellLabels, List.map_map]
  have h2 : ((fun L : LabelDraw => (L.text, L.color)) ∘ fun p : Nat × DeliveryRecord =>
      ({ x := x + 17 / 100, y := yTop - dateP - (p.1 : ℚ) * lineH + 2 / 25,
         text := p.2.taskLabel, color := colorLookup colors p.2.source } : LabelDraw))
      = (fun r : DeliveryRecord => (r.taskLabel, colorLookup colors r.source)) ∘ Prod.snd := rfl
  rw [h2, ← List.map_map, List.enum_map_snd]

/-- C9: for any two configurations of the spacing constants, the
layout-plus-render pipeline draws the same day labels with the same text
and the same source colours, in the same order: the configuration moves
labels but never changes which records appear. -/
theorem config_only_affects_geometry (df : List DeliveryRecord)
    (colors : List (String × String)) (y : Int) (m : Nat) (cfg1 cfg2 : LayoutConfig) :
    (calendarLabels df colors y m cfg1).map (fun L => (L.text, L.color))
      = (calendarLabels df colors y m cfg2).map (fun L => (L.text, L.color)) := by
  have key : ∀ cfg : LayoutConfig,
      (calendarLabels df colors y m cfg).map (fun L => (L.text, L.color))
        = (monthcalendar y m).enum.flatMap (fun wp =>
            wp.2.enum.flatMap (fun dp =>
              if dp.2 = 0 then []
              else (tasksForDay df y m dp.2).map
                (fun r => (r.taskLabel, colorLookup colors r.source)))) := by
    intro cfg
    rw [calendarLabels, List.map_flatMap]
    congr 1
    funext wp
    rw [List.map_flatMap]
    congr 1
    funext dp
    by_cases hd : dp.2 = 0
    · simp [hd]
    · rw [if_neg hd, if_neg hd, cellLabels_proj]
  rw [key cfg1, key cfg2]

/-- Removing the records whose timestamp is not midnight changes no
day's record list: per-day matching tests equality with a midnight
timestamp. -/
theorem tasksForDay_midnight_only (df : List DeliveryRecord) (y : Int) (m day : Nat) :
    tasksForDay (df.filter fun x => x.date.timeOfDay == 0) y m day
      = tasksForDay df y m day := by
  rw [tasksForDay, tasksForDay, List.filter_filter]
  apply List.filter_congr
  intro r _
  by_cases h : r.date = midnight y m day
  · simp [h, midnight]
  · simp [h]

/-- Week heights are unchanged when the non-midnight records are
removed. -/
theorem week_heights_midnight_only (df : List DeliveryRecord) (y : Int) (m : Nat)
    (cfg : LayoutConfig) :
    week_heights (df.filter fun x => x.date.timeOfDay == 0) y m cfg
      = week_heights df y m cfg := by
  rw [week_heights, week_heights]
  congr 1
  funext wk
  congr 1
  rw [week_max, week_max]
  congr 1
  funext a day
  rw [tasksForDay_midnight_only]

/-- C10: a loaded record whose parsed timestamp has a nonzero time of
day is counted toward no day cell, and the whole rendered label output
is unchanged if all such records are removed: they survive loading yet
never appear on the calendar. -/
theorem nonmidnight_records_invisible (df : List DeliveryRecord) (r : DeliveryRecord)
    (hmem : r ∈ df) (htod : r.date.timeOfDay ≠ 0) :
    (∀ (y : Int) (m day : Nat), r ∉ tasksForDay df y m day)
      ∧ (∀ (colors : List (String × String)) (y : Int) (m : Nat) (cfg : LayoutConfig),
          calendarLabels df colors y m cfg
            = calendarLabels (df.filter fun x => x.date.timeOfDay == 0) colors y m cfg) := by
  constructor
  · intro y m day hin
    have h := (List.mem_filter.1 hin).2
    rw [decide_eq_true_eq] at h
    exact htod (by rw [h]; rfl)
  · intro colors y m cfg
    rw [calendarLabels, calendarLabels, week_heights_midnight_only]
    congr 1
    funext wp
    congr 1
    funext dp
    by_cases hd : dp.2 = 0
    · simp [hd]
    · rw [if_neg hd, if_neg hd, cellLabels, cellLabels, tasksForDay_midnight_only]

/-- Witness for `nonmidnight_records_invisible`: a record at 2024-01-15
with one hour past midnight inside a two-record collection. -/
theorem nonmidnight_records_invisible_witness :
    (∀ (y : Int) (m day : Nat), lateRecord ∉ tasksForDay [cexRecord, lateRecord] y m day)
      ∧ (∀ (colors : List (String × String)) (y : Int) (m : Nat) (cfg : LayoutConfig),
          calendarLabels [cexRecord, lateRecord] colors y m cfg
            = calendarLabels ([cexRecord, lateRecord].filter fun x => x.date.timeOfDay == 0)
                colors y m cfg) :=
  nonmidnight_records_invisible [cexRecord, lateRecord] lateRecord (by decide) (by decide)

/-- An upper-case letter is a word character. -/
theorem isWordChar_of_isUpper {a : Char} (h : a.isUpper = true) : isWordChar a = true := by
  simp [isWordChar, Char.isAlphanum, Char.isAlpha, h]

/-- A lower-case letter is a word character. -/
theorem isWordChar_of_isLower {a : Char} (h : a.isLower = true) : isWordChar a = true := by
  simp [isWordChar, Char.isAlphanum, Char.isAlpha, h]

/-- Characters equal up to ASCII case have the same word-character
status. -/
theorem ciEq_isWordChar {a b : Char} (h : ciEq a b = true) : isWordChar a = isWordChar b := by
  rw [ciEq] at h
  rcases Bool.or_eq_true_iff.1 h with h1 | h1
  · rcases Bool.or_eq_true_iff.1 h1 with h2 | h2
    · rw [eq_of_beq h2]
    · rcases Bool.and_eq_true_iff.1 h2 with ⟨h3, -⟩
      rcases Bool.and_eq_true_iff.1 h3 with ⟨hu, hl⟩
      rw [isWordChar_of_isUpper hu, isWordChar_of_isLower hl]
  · rcases Bool.and_eq_true_iff.1 h1 with ⟨h3, -⟩
    rcases Bool.and_eq_true_iff.1 h3 with ⟨hu, hl⟩
    rw [isWordChar_of_isLower hl, isWordChar_of_isUpper hu]

/-- Only a space matches a literal space case-insensitively. -/
theorem ciEq_space {c : Char} (h : ciEq ' ' c = true) : c = ' ' := by
  rw [ciEq] at h
  have h1 : (' ' : Char).isUpper = false := by decide
  have h2 : (' ' : Char).isLower = false := by decide
  rcases Bool.or_eq_true_iff.1 h with h3 | h3
  · rcases Bool.or_eq_true_iff.1 h3 with h4 | h4
    · exact (eq_of_beq h4).symm
    · rcases Bool.and_eq_true_iff.1 h4 with ⟨h5, -⟩
      rcases Bool.and_eq_true_iff.1 h5 with ⟨hu, -⟩
      rw [h1] at hu; exact absurd hu (by simp)
  · rcases Bool.and_eq_true_iff.1 h3 with ⟨h5, -⟩
    rcases Bool.and_eq_true_iff.1 h5 with ⟨-, hl⟩
    rw [h2] at hl; exact absurd hl (by simp)

/-- Unfolding `hasOcc` at a cons cell. -/
theorem hasOcc_cons (pat : List Char) (w : Bool) (c : Char) (cs : List Char) :
    hasOcc pat w (c :: cs)
      = ((!w && matchOk pat (c :: cs)) || hasOcc pat (isWordChar c) cs) := rfl

/-- A nonempty pattern has no boundary match against the empty list. -/
theorem matchOk_nil (p : Char) (ps : List Char) : matchOk (p :: ps) [] = false := rfl

/-- Head step of a boundary match when the first characters agree. -/
theorem matchOk_cons_true {p c : Char} (ps l : List Char) (h : ciEq p c = true) :
    matchOk (p :: ps) (c :: l) = matchOk ps l := by
  simp [matchOk, matchCI, h]

/-- Head step of a boundary match when the first characters disagree. -/
theorem matchOk_cons_false {p c : Char} (ps l : List Char) (h : ciEq p c = false) :
    matchOk (p :: ps) (c :: l) = false := by
  simp [matchOk, matchCI, h]

/-- A successful `matchCI` makes the pattern and input agree position by
position, up to case. -/
theorem matchCI_getD {q l r : List Char} (h : matchCI q l = some r) :
    ∀ i, i < q.length → ciEq (q.getD i ' ') (l.getD i ' ') = true := by
  induction q generalizing l with
  | nil => intro i hi; simp at hi
  | cons p ps ih =>
    cases l with
    | nil => simp [matchCI] at h
    | cons c cs =>
      rw [matchCI] at h
      by_cases hc : ciEq p c = true
      · rw [if_pos hc] at h
        intro i hi
        cases i with
        | zero => simpa [List.getD] using hc
        | succ j =>
          simp only [List.getD_cons_succ]
          exact ih h j (by simpa using hi)
      · rw [if_neg hc] at h; simp at h

/-- A successful `matchCI` consumes at most the input. -/
theorem matchCI_length {q l r : List Char} (h : matchCI q l = some r) :
    q.length ≤ l.length := by
  induction q generalizing l with
  | nil => simp
  | cons p ps ih =>
    cases l with
    | nil => simp [matchCI] at h
    | cons c cs =>
      rw [matchCI] at h
      by_cases hc : ciEq p c = true
      · rw [if_pos hc] at h
        simpa using ih h
      · rw [if_neg hc] at h; simp at h

/-- A boundary match succeeds exactly when `matchCI` succeeds and no
word character follows. -/
theorem matchOk_iff (pat l : List Char) :
    matchOk pat l = true ↔ ∃ r, matchCI pat l = some r ∧ headWord r = false := by
  cases h : matchCI pat l <;> simp [matchOk, h]

/-- `subAux` on the empty list is the empty list, whatever the fuel. -/
theorem subAux_nil (p0 : Char) (ps rep : List Char) (fuel : Nat) (w : Bool) :
    subAux p0 ps rep fuel w [] = [] := by
  cases fuel <;> rfl

/-- The list's default is irrelevant to `getD` inside the list. -/
theorem getD_irrel {α : Type} (l : List α) (n : Nat) (d1 d2 : α) (h : n < l.length) :
    l.getD n d1 = l.getD n d2 := by
  rw [List.getD_eq_getElem?_getD, List.getD_eq_getElem?_getD, List.getElem?_eq_getElem h]
  rfl

/-- If the pattern has no boundary occurrence, the substitution is the
identity. -/
theorem subAux_no_occ (p0 : Char) (ps rep : List Char) :
    ∀ (l : List Char) (fuel : Nat) (w : Bool), l.length ≤ fuel →
      hasOcc (p0 :: ps) w l = false → subAux p0 ps rep fuel w l = l := by
  intro l
  induction l with
  | nil => intro fuel w _ _; exact subAux_nil p0 ps rep fuel w
  | cons c cs ih =>
    intro fuel w hlen hocc
    cases fuel with
    | zero => simp at hlen
    | succ f =>
      rw [hasOcc_cons] at hocc
      rcases Bool.or_eq_false_iff.1 hocc with ⟨h1, h2⟩
      rw [subAux, if_neg (by rw [h1]; exact Bool.false_ne_true)]
      rw [ih f (isWordChar c) (by simpa using hlen) h2]

/-- Copy-mode transfer: while the previous character is a word character,
`subAux` copies characters unchanged, so matching an all-word-character
pattern suffix (with its trailing boundary) against the substituted tail
is the same as matching it against the original tail. -/
theorem subAux_copy_matchOk (p0 : Char) (ps rep : List Char) :
    ∀ (cs q : List Char) (fuel : Nat), q.all isWordChar = true → cs.length ≤ fuel →
      matchOk q (subAux p0 ps rep fuel true cs) = matchOk q cs := by
  intro cs
  induction cs with
  | nil => intro q fuel _ _; rw [subAux_nil]
  | cons d ds ih =>
    intro q fuel hq hlen
    cases fuel with
    | zero => simp at hlen
    | succ f =>
      have hstep : subAux p0 ps rep (f + 1) true (d :: ds)
          = d :: subAux p0 ps rep f (isWordChar d) ds := by
        simp [subAux]
      rw [hstep]
      cases q with
      | nil => simp [matchOk, matchCI, headWord]
      | cons e es =>
        simp only [List.all_cons, Bool.and_eq_true] at hq
        by_cases hc : ciEq e d = true
        · have hd : isWordChar d = true := by rw [← ciEq_isWordChar hc]; exact hq.1
          rw [matchOk_cons_true es _ hc, matchOk_cons_true es _ hc, hd]
          exact ih es f hq.2 (by simpa using hlen)
        · have hc' : ciEq e d = false := by
            cases hcc : ciEq e d
            · rfl
            · exact absurd hcc hc
          rw [matchOk_cons_false es _ hc', matchOk_cons_false es _ hc']

/-- Applying the "SWITCHGEAR" → "SWGR" rule leaves a string with no
word-boundary occurrence of "SWITCHGEAR": every original occurrence is
replaced, "SWGR" cannot recreate one (it is not a substring of
"SWITCHGEAR" up to case), and characters adjacent to a replacement are
word characters, blocking boundary matches across the seam. -/
theorem subAux_sw_no_sw :
    ∀ (fuel : Nat) (l : List Char) (w : Bool), l.length ≤ fuel →
      hasOcc ['S', 'W', 'I', 'T', 'C', 'H', 'G', 'E', 'A', 'R'] w
        (subAux 'S' ['W', 'I', 'T', 'C', 'H', 'G', 'E', 'A', 'R'] ['S', 'W', 'G', 'R']
          fuel w l) = false := by
  intro fuel
  induction fuel with
  | zero =>
    intro l w hlen
    have hnil : l = [] := List.length_eq_zero.1 (Nat.le_zero.1 hlen)
    subst hnil
    rw [subAux_nil]
    rfl
  | succ f ih =>
    intro l w hlen
    cases l with
    | nil => rw [subAux_nil]; rfl
    | cons c cs =>
      have hlen' : cs.length ≤ f := by simpa using hlen
      by_cases hcond :
          (!w && matchOk ['S', 'W', 'I', 'T', 'C', 'H', 'G', 'E', 'A', 'R'] (c :: cs)) = true
      · rw [subAux, if_pos hcond]
        have e9 : (['W', 'I', 'T', 'C', 'H', 'G', 'E', 'A', 'R'] : List Char).length = 9 := rfl
        rw [e9]
        have hup := (Bool.and_eq_true_iff.1 hcond).2
        rcases (matchOk_iff _ _).1 hup with ⟨r, hm, -⟩
        have hl10 : 10 ≤ (c :: cs).length := by
          have := matchCI_length hm
          simpa using this
        have h9 : 9 < (c :: cs).length := by omega
        have hciR : ciEq 'R' ((c :: cs).getD 9 ' ') = true := by
          have h' := matchCI_getD hm 9 (by decide)
          simpa using h'
        have hflag : isWordChar ((c :: cs).getD 9 c) = true := by
          rw [getD_irrel _ 9 c ' ' h9, ← ciEq_isWordChar hciR]
          decide
        rw [hflag]
        rw [show (['S', 'W', 'G', 'R'] : List Char)
              ++ subAux 'S' ['W', 'I', 'T', 'C', 'H', 'G', 'E', 'A', 'R'] ['S', 'W', 'G', 'R']
                f true (cs.drop 9)
            = 'S' :: 'W' :: 'G' :: 'R'
              :: subAux 'S' ['W', 'I', 'T', 'C', 'H', 'G', 'E', 'A', 'R'] ['S', 'W', 'G', 'R']
                f true (cs.drop 9) from rfl]
        rw [hasOcc_cons, hasOcc_cons, hasOcc_cons, hasOcc_cons]
        have cSS : ciEq 'S' 'S' = true := by decide
        have cWW : ciEq 'W' 'W' = true := by decide
        have cIG : ciEq 'I' 'G' = false := by decide
        have e1 : matchCI ['S', 'W', 'I', 'T', 'C', 'H', 'G', 'E', 'A', 'R']
            ('S' :: 'W' :: 'G' :: 'R'
              :: subAux 'S' ['W', 'I', 'T', 'C', 'H', 'G', 'E', 'A', 'R'] ['S', 'W', 'G', 'R']
                f true (cs.drop 9)) = none := by
          rw [matchCI, if_pos cSS, matchCI, if_pos cWW, matchCI, if_neg (by rw [cIG]; decide)]
        have e2 : matchOk ['S', 'W', 'I', 'T', 'C', 'H', 'G', 'E', 'A', 'R']
            ('S' :: 'W' :: 'G' :: 'R'
              :: subAux 'S' ['W', 'I', 'T', 'C', 'H', 'G', 'E', 'A', 'R'] ['S', 'W', 'G', 'R']
                f true (cs.drop 9)) = false := by
          simp [matchOk, e1]
        rw [e2]
        rw [show isWordChar 'S' = true from by decide, show isWordChar 'W' = true from by decide,
          show isWordChar 'G' = true from by decide, show isWordChar 'R' = true from by decide]
        simp only [Bool.and_false, Bool.not_true, Bool.false_and, Bool.false_or]
        exact ih (cs.drop 9) true (by rw [List.length_drop]; omega)
      · rw [subAux, if_neg hcond]
        rw [hasOcc_cons]
        rw [ih cs (isWordChar c) hlen']
        simp only [Bool.or_false]
        cases hw : w
        · simp only [Bool.not_false, Bool.true_and]
          rw [hw] at hcond
          simp only [Bool.not_false, Bool.true_and] at hcond
          have hmf : matchOk ['S', 'W', 'I', 'T', 'C', 'H', 'G', 'E', 'A', 'R'] (c :: cs) = false := by
            cases hmm : matchOk ['S', 'W', 'I', 'T', 'C', 'H', 'G', 'E', 'A', 'R'] (c :: cs)
            · rfl
            · exact absurd hmm hcond
          by_cases hSc : ciEq 'S' c = true
          · have hwc : isWordChar c = true := by
              rw [← ciEq_isWordChar hSc]; decide
            rw [matchOk_cons_true _ _ hSc, hwc]
            rw [subAux_copy_matchOk 'S' ['W', 'I', 'T', 'C', 'H', 'G', 'E', 'A', 'R']
              ['S', 'W', 'G', 'R'] cs ['W', 'I', 'T', 'C', 'H', 'G', 'E', 'A', 'R'] f
              (by decide) hlen']
            rw [matchOk_cons_true _ _ hSc] at hmf
            exact hmf
          · have hSc' : ciEq 'S' c = false := by
              cases hh : ciEq 'S' c
              · rfl
              · exact absurd hh hSc
            rw [matchOk_cons_false _ _ hSc']
        · simp

/-- A Bool that is not true is false. -/
theorem bool_eq_false_of_not_true {b : Bool} (h : ¬ b = true) : b = false := by
  cases hb : b
  · rfl
  · exact absurd hb h

/-- A word-boundary occurrence of "LV SWITCHGEAR" contains a
word-boundary occurrence of "SWITCHGEAR" three characters later (after
"LV "), so a string with no "SWITCHGEAR" occurrence has no
"LV SWITCHGEAR" occurrence either. -/
theorem hasOcc_lv_of_sw :
    ∀ (l : List Char) (w : Bool),
      hasOcc ['S', 'W', 'I', 'T', 'C', 'H', 'G', 'E', 'A', 'R'] w l = false →
      hasOcc ['L', 'V', ' ', 'S', 'W', 'I', 'T', 'C', 'H', 'G', 'E', 'A', 'R'] w l = false := by
  intro l
  induction l with
  | nil => intro w _; rfl
  | cons c cs ih =>
    intro w h
    rw [hasOcc_cons] at h
    rcases Bool.or_eq_false_iff.1 h with ⟨h1, h2⟩
    rw [hasOcc_cons, ih (isWordChar c) h2]
    simp only [Bool.or_false]
    cases hw : w
    · simp only [Bool.not_false, Bool.true_and]
      by_cases hLc : ciEq 'L' c = true
      · rw [matchOk_cons_true _ _ hLc]
        cases cs with
        | nil => exact matchOk_nil _ _
        | cons c2 cs2 =>
          by_cases hVc : ciEq 'V' c2 = true
          · rw [matchOk_cons_true _ _ hVc]
            cases cs2 with
            | nil => exact matchOk_nil _ _
            | cons c3 cs3 =>
              by_cases hSp : ciEq ' ' c3 = true
              · have hc3 : c3 = ' ' := ciEq_space hSp
                subst hc3
                rw [matchOk_cons_true _ _ hSp]
                rw [hasOcc_cons] at h2
                rcases Bool.or_eq_false_iff.1 h2 with ⟨-, h3⟩
                rw [hasOcc_cons] at h3
                rcases Bool.or_eq_false_iff.1 h3 with ⟨-, h4⟩
                rw [show isWordChar ' ' = false from by decide] at h4
                cases cs3 with
                | nil => exact matchOk_nil _ _
                | cons c4 cs4 =>
                  rw [hasOcc_cons] at h4
                  rcases Bool.or_eq_false_iff.1 h4 with ⟨h5, -⟩
                  simpa using h5
              · exact matchOk_cons_false _ _ (bool_eq_false_of_not_true hSp)
          · exact matchOk_cons_false _ _ (bool_eq_false_of_not_true hVc)
      · exact matchOk_cons_false _ _ (bool_eq_false_of_not_true hLc)
    · simp

/-- After the "SWITCHGEAR" → "SWGR" rule has run, the
"LV SWITCHGEAR" → "LV SWGR" rule is the identity: it never fires. -/
theorem subSW_then_subLV (l : List Char) :
    subWordL "LV SWITCHGEAR" "LV SWGR" (subWordL "SWITCHGEAR" "SWGR" l)
      = subWordL "SWITCHGEAR" "SWGR" l := by
  have hSW : subWordL "SWITCHGEAR" "SWGR" l
      = subAux 'S' ['W', 'I', 'T', 'C', 'H', 'G', 'E', 'A', 'R'] ['S', 'W', 'G', 'R']
          l.length false l := rfl
  have h1 : hasOcc ['S', 'W', 'I', 'T', 'C', 'H', 'G', 'E', 'A', 'R'] false
      (subWordL "SWITCHGEAR" "SWGR" l) = false := by
    rw [hSW]
    exact subAux_sw_no_sw l.length l false le_rfl
  have h2 := hasOcc_lv_of_sw _ false h1
  have h3 : subWordL "LV SWITCHGEAR" "LV SWGR" (subWordL "SWITCHGEAR" "SWGR" l)
      = subAux 'L' ['V', ' ', 'S', 'W', 'I', 'T', 'C', 'H', 'G', 'E', 'A', 'R']
          ['L', 'V', ' ', 'S', 'W', 'G', 'R']
          (subWordL "SWITCHGEAR" "SWGR" l).length false
          (subWordL "SWITCHGEAR" "SWGR" l) := rfl
  rw [h3]
  exact subAux_no_occ 'L' _ _ _ _ false le_rfl h2

/-- C7: the normalization pipeline is unchanged if the
`"LV SWITCHGEAR" → "LV SWGR"` rule is removed from the ordered rule
list: for every input string the outputs coincide, because the
`"SWITCHGEAR" → "SWGR"` rule runs first and leaves nothing for the LV
rule to match (the rule is dead code). -/
theorem lv_switchgear_rule_redundant (s : String) :
    clean_label s = clean_labelNoLV s
      ∧ subWordL "LV SWITCHGEAR" "LV SWGR" (subWordL "SWITCHGEAR" "SWGR" s.data)
        = subWordL "SWITCHGEAR" "SWGR" s.data := by
  refine ⟨?_, subSW_then_subLV s.data⟩
  rw [clean_label, clean_labelNoLV]
  have hrw : applyRules rules s.data = applyRules rulesNoLV s.data := by
    simp only [applyRules, rules, rulesNoLV, List.foldl_cons, List.foldl_nil]
    rw [subSW_then_subLV]
  rw [hrw]

/-- Sanity checks of the embedding against known behaviour of the
source: the month grid of two sample months, the spec's worked
normalization example, and the Phase pattern on boundary inputs. -/
theorem embedding_sanity :
    monthcalendar 2024 1
        = [[0, 1, 2, 3, 4, 5, 6], [7, 8, 9, 10, 11, 12, 13], [14, 15, 16, 17, 18, 19, 20],
           [21, 22, 23, 24, 25, 26, 27], [28, 29, 30, 31, 0, 0, 0]]
      ∧ monthcalendar 2023 2
        = [[0, 0, 0, 1, 2, 3, 4], [5, 6, 7, 8, 9, 10, 11], [12, 13, 14, 15, 16, 17, 18],
           [19, 20, 21, 22, 23, 24, 25], [26, 27, 28, 0, 0, 0, 0]]
      ∧ clean_label "MV SWITCHGEAR 1.3A" = "MV SWGR 1.3A"
      ∧ clean_label "MARS PANELS" = "Racking"
      ∧ phaseMatch "Phase 3" = true ∧ phaseMatch "pHASE  37" = true
      ∧ phaseMatch "Phase 3A" = false ∧ phaseMatch "Phase3" = false := by
  refine ⟨by decide, by decide, by decide, by decide, by decide, by decide, by decide, by decide⟩
